import Mathlib

/-!
Shallow embedding of `gym_super_mario_bros/smb_random_stages_env.py`
(`SuperMarioBrosRandomStagesEnv`): the stage-selection / curriculum wrapper.

The per-level simulation instances (`SuperMarioBrosEnv`) and the numpy
random number generator are external collaborators of the wrapper; they are
modelled abstractly: an instance is identified by its `(world, stage)`
target tuple, and the random source is a small deterministic PRNG (the spec
only requires the seeded source to be deterministic).  Python exceptions
are modelled by returning an error message together with the state as
mutated up to the raise, matching the mutation order of the source.
Machine floats of the weight arrays are modelled as rationals, with the
external `np.log` passed in as an abstract function `ℚ → ℚ`.
-/

namespace SMBRandomStages

/-- Modelled from the spec: the wrapper's dedicated random number source
(`np.random.RandomState`, an external library collaborator).  The spec only
requires that `seed` reseeds it deterministically and that draws are a
deterministic function of its state, so it is modelled as a small linear
congruential generator on 16-bit states. -/
structure RandomState where
  state : Nat

/-- Modelled from the spec: deterministic reseeding of the random source. -/
def RandomState.seedWith (s : Nat) : RandomState := ⟨s % 65536⟩

/-- Modelled from the spec: one raw draw of the random source. -/
def RandomState.next (r : RandomState) : Nat × RandomState :=
  let n := (r.state * 75 + 74) % 65536
  (n, ⟨n⟩)

/-- Modelled from the spec: `np_random.randint(lo, hi)`, a uniform draw in
`[lo, hi)`. -/
def RandomState.randint (lo hi : Nat) (r : RandomState) : Nat × RandomState :=
  let d := r.next
  (lo + d.1 % (hi - lo), d.2)

/-- Index selected by a weighted draw: walk the cumulative weights until the
target mass is exceeded. -/
def pickIndex : List ℚ → ℚ → Nat
  | [], _ => 0
  | [_], _ => 0
  | w :: ws, t => if t < w then 0 else pickIndex ws (t - w) + 1

/-- Modelled from the spec: `np_random.choice(items, p)`, a weighted random
choice.  numpy validates that `p` matches `items` in size and is a
probability vector before drawing; on a validation failure it raises
without consuming randomness. -/
def RandomState.choiceW (items : List String) (p : List ℚ) (r : RandomState) :
    Except String (String × RandomState) :=
  if items.length = 0 then
    Except.error "ValueError: a cannot be empty"
  else if p.length ≠ items.length then
    Except.error "ValueError: a and p must have same size"
  else if (∃ q ∈ p, q < 0) ∨ p.sum ≤ 0 then
    Except.error "ValueError: probabilities are invalid"
  else
    let d := r.next
    let target : ℚ := (d.1 : ℚ) / 65536 * p.sum
    Except.ok (items.getD (pickIndex p target) "", d.2)

/-- A slot of the 8 x 4 instance grid: `none` when no instance was built for
that level, otherwise the `(world, stage)` target of the built instance. -/
abbrev Slot := Option (Nat × Nat)

/-- The instance grid `self.envs`. -/
abbrev Grid := List (List Slot)

/-- Python list indexing: nonnegative indices in range, one wrap-around for
negative indices, `none` for an `IndexError`. -/
def pyIndex {α : Type} (l : List α) (i : Int) : Option α :=
  if 0 ≤ i ∧ i < (l.length : Int) then l.get? i.toNat
  else if -(l.length : Int) ≤ i ∧ i < 0 then l.get? (i + (l.length : Int)).toNat
  else none

/-- Lookup `self.envs[world][stage]`: outer `none` is an `IndexError`,
`some none` is an absent slot, `some (some t)` a built instance. -/
def gridLookup (g : Grid) (w s : Int) : Option Slot :=
  match pyIndex g w with
  | none => none
  | some row => pyIndex row s

/-- The f-string `f"{world}-{stage}"` used as a stage identifier; the
constructor only instantiates it for single-digit worlds and stages. -/
def stageName (world stage : Nat) : String :=
  String.mk [Char.ofNat (48 + world), '-', Char.ofNat (48 + stage)]

/-- Split a character list on the dash character, keeping empty segments,
like Python `str.split("-")`. -/
def splitDashAux : List Char → List Char → List (List Char)
  | [], acc => [acc.reverse]
  | c :: cs, acc =>
      if c = '-' then acc.reverse :: splitDashAux cs []
      else splitDashAux cs (c :: acc)

/-- Python `level.split("-")`. -/
def splitDash (s : String) : List String :=
  (splitDashAux s.data []).map String.mk

/-- Parse a decimal digit string as `int(...)` would; `none` on any
non-digit or the empty string. -/
def toNatChars : List Char → Nat → Option Nat
  | [], acc => some acc
  | c :: cs, acc =>
      if c.isDigit then toNatChars cs (acc * 10 + (c.toNat - 48)) else none

/-- Python `int(s)` restricted to nonnegative decimal literals. -/
def pyInt (s : String) : Option Nat :=
  match s.data with
  | [] => none
  | _ => toNatChars s.data 0

/-- Lines 148-150 of the source: `world, stage = level.split("-")` followed
by `int(world) - 1` and `int(stage) - 1`; `none` models the `ValueError`
of a malformed identifier. -/
def parseLevel (lvl : String) : Option (Int × Int) :=
  match splitDash lvl with
  | [w, s] =>
      match pyInt w, pyInt s with
      | some wn, some sn => some ((wn : Int) - 1, (sn : Int) - 1)
      | _, _ => none
  | _ => none

/-- Python `list.index(x)`: position of the first occurrence, `none` models
the `ValueError` when absent. -/
def indexIn (lvl : String) : List String → Option Nat
  | [] => none
  | x :: xs => if x = lvl then some 0 else (indexIn lvl xs).map (· + 1)

/-- The mutable attributes of a `SuperMarioBrosRandomStagesEnv` object.
`env` is the active-instance reference (`none` after `close`, or when the
placeholder slot `envs[0][0]` was absent). -/
structure State where
  envs : Grid
  env : Slot
  viewer : Option Unit
  stages : List String
  unlock_stages : Nat
  max_unlocked : Nat
  stages_weights : List ℚ
  count_finished : List Nat
  steps_per_stage : List Nat
  balance_steps_per_stage : Bool
  stage_index : Option Nat
  level : Option String
  np_random : RandomState

/-- The instance grid built by the constructor loops (lines 55-70): one
instance per named stage of the set, `none` for every other slot. -/
def gridOf (stageSet : List String) : Grid :=
  (List.range 8).map fun w =>
    (List.range 4).map fun s =>
      if stageSet.contains (stageName (w + 1) (s + 1)) then
        some (w + 1, s + 1)
      else none

/-- The constructor (`__init__`, lines 26-88).  `stages` is `none` when the
argument is absent (its Python default); membership of a string in `None`
raises a `TypeError` on the first loop iteration, before any instance is
built.  `unlock_stages` is the value after the `int(...)` coercion, so a
falsy argument is `0`.  `rng0` is the unseeded entropy of the fresh
`RandomState()`. -/
def init (stages : Option (List String)) (unlock_stages : Nat)
    (balance_steps_per_stage : Bool) (rng0 : RandomState) : Except String State :=
  match stages with
  | none => Except.error "TypeError: argument of type NoneType is not iterable"
  | some stageSet =>
      let envs : Grid := gridOf stageSet
      let m := if unlock_stages ≠ 0 then 1 else stageSet.length
      Except.ok
        { envs := envs
          env := (envs.getD 0 []).getD 0 none
          viewer := none
          stages := stageSet
          unlock_stages := unlock_stages
          max_unlocked := m
          stages_weights := List.replicate m 1
          count_finished := List.replicate stageSet.length 0
          steps_per_stage := List.replicate stageSet.length 0
          balance_steps_per_stage := balance_steps_per_stage
          stage_index := none
          level := none
          np_random := rng0 }

/-- The `seed` method (lines 95-113): reseed only when a seed is given, and
return the list of seeds used. -/
def seed (sd : Option Nat) (s : State) : List Nat × State :=
  match sd with
  | none => ([], s)
  | some v => ([v], { s with np_random := RandomState.seedWith v })

/-- Outcome of the level-selection part of `reset`: which attributes were
assigned (`none` components were left untouched), the advanced random
source, the error raised mid-way if any, and the `(world, stage)` target of
the instance whose own `reset` was delegated to on success. -/
structure SelResult where
  err : Option String
  weightsNew : Option (List ℚ)
  levelNew : Option String
  idxNew : Option Nat
  envNew : Option Slot
  rng : RandomState
  selected : Option (Nat × Nat)

/-- Last element of a weight array, with a default for the impossible empty
case. -/
def lastD : List ℚ → ℚ → ℚ
  | [], d => d
  | [x], _ => x
  | _ :: x :: xs, d => lastD (x :: xs) d

/-- Lines 142-157 of `reset`, after the weight computation: the weighted
choice over `stages[:max_unlocked]`, the index lookup in the constructor
stage set `self.stages`, the level-string parse, and the switch of the
active instance followed by the delegated reset.  `wcur` is the current
`self.stages_weights`, `wNew` records whether this call reassigned it. -/
def afterWeights (l : List String) (m : Nat) (wcur : List ℚ)
    (ctorStages : List String) (grid : Grid) (rng : RandomState)
    (wNew : Option (List ℚ)) : SelResult :=
  let p := wcur.map fun q => q / wcur.sum
  match RandomState.choiceW (l.take m) p rng with
  | Except.error e => ⟨some e, wNew, none, none, none, rng, none⟩
  | Except.ok lr =>
      let lvl := lr.1
      let rng2 := lr.2
      match indexIn lvl ctorStages with
      | none =>
          ⟨some ("ValueError: " ++ lvl ++ " is not in list"), wNew, some lvl,
            none, none, rng2, none⟩
      | some idx =>
          match parseLevel lvl with
          | none =>
              ⟨some "ValueError: malformed level string", wNew, some lvl,
                some idx, none, rng2, none⟩
          | some ws =>
              match gridLookup grid ws.1 ws.2 with
              | none =>
                  ⟨some "IndexError: list index out of range", wNew, some lvl,
                    some idx, none, rng2, none⟩
              | some none =>
                  ⟨some "AttributeError: NoneType object has no attribute reset",
                    wNew, some lvl, some idx, some none, rng2, none⟩
              | some (some t) =>
                  ⟨none, wNew, some lvl, some idx, some (some t), rng2, some t⟩

/-- The per-stage balancing weight of line 139:
`1e6 / (1 + np.log(steps_taken + 1))`. -/
def balanceWeight (log : ℚ → ℚ) (t : Nat) : ℚ :=
  1000000 / (1 + log ((t : ℚ) + 1))

/-- Lines 138-157 of `reset` for a non-empty effective stage set: when
balancing by steps, recompute `stages_weights` as
`1e6 / (1 + log(steps_per_stage + 1))` truncated to `max_unlocked` entries
with the last entry multiplied by `max_unlocked` (an empty truncation makes
the `[-1]` access raise), then select. -/
def selectStage (log : ℚ → ℚ) (l : List String) (balance : Bool)
    (steps : List Nat) (m : Nat) (w0 : List ℚ) (ctorStages : List String)
    (grid : Grid) (rng : RandomState) : SelResult :=
  if balance then
    let w2 := (steps.map (balanceWeight log)).take m
    if w2.length = 0 then
      ⟨some "IndexError: index -1 is out of bounds", some w2, none, none, none,
        rng, none⟩
    else
      let w3 := w2.dropLast ++ [lastD w2 0 * (m : ℚ)]
      afterWeights l m w3 ctorStages grid rng (some w3)
  else
    afterWeights l m w0 ctorStages grid rng none

/-- Lines 151-157 of `reset`, the branch without a stage set: draw a world
in `[1, 8]` and a stage in `[1, 4]` uniformly and switch to that slot of
the grid; the slot may hold no instance, in which case the delegated reset
raises after the active-instance reference was already reseated. -/
def uniformSelect (grid : Grid) (rng : RandomState) : SelResult :=
  let d1 := RandomState.randint 1 9 rng
  let d2 := RandomState.randint 1 5 d1.2
  match gridLookup grid ((d1.1 : Int) - 1) ((d2.1 : Int) - 1) with
  | none => ⟨some "IndexError: list index out of range", none, none, none, none,
      d2.2, none⟩
  | some none =>
      ⟨some "AttributeError: NoneType object has no attribute reset", none,
        none, none, some none, d2.2, none⟩
  | some (some t) => ⟨none, none, none, none, some (some t), d2.2, some t⟩

/-- Lines 132-135: the effective stage collection of a reset — the value
under the `stages` key of the options mapping when present (which may
itself be `None`), else the constructor stage set. -/
def effectiveStages (options : Option (Option (List String))) (s1 : State) :
    Option (List String) :=
  match options with
  | some ov => ov
  | none => some s1.stages

/-- Resolve the effective stage collection (lines 132-135) and select a
level accordingly (lines 136-153). -/
def chooseSel (log : ℚ → ℚ) (options : Option (Option (List String)))
    (s1 : State) : SelResult :=
  match effectiveStages options s1 with
  | some l =>
      if 0 < l.length then
        selectStage log l s1.balance_steps_per_stage s1.steps_per_stage
          s1.max_unlocked s1.stages_weights s1.stages s1.envs s1.np_random
      else uniformSelect s1.envs s1.np_random
  | none => uniformSelect s1.envs s1.np_random

/-- Apply a selection outcome to the object's attributes, in the source's
assignment order. -/
def applySel (s : State) (r : SelResult) : State :=
  { s with
    np_random := r.rng
    stages_weights := r.weightsNew.getD s.stages_weights
    level := match r.levelNew with | some lv => some lv | none => s.level
    stage_index := match r.idxNew with | some i => some i | none => s.stage_index
    env := r.envNew.getD s.env }

/-- Result of `reset`: the error raised if any, the object state afterwards,
and the `(world, stage)` target whose instance the reset was delegated to
on success. -/
structure ResetResult where
  err : Option String
  state : State
  selected : Option (Nat × Nat)

/-- The `reset` method (lines 115-157): reseed if a seed is given, resolve
the effective stage set (an options mapping may override it for this call),
select a level, switch the active instance and delegate. -/
def reset (log : ℚ → ℚ) (sd : Option Nat)
    (options : Option (Option (List String))) (s : State) : ResetResult :=
  let s1 := (seed sd s).2
  let r := chooseSel log options s1
  ⟨r.err, applySel s1 r, r.selected⟩

/-- Python `arr[i] += 1` on a counter array. -/
def incAt (l : List Nat) (i : Nat) : List Nat := l.set i (l.getD i 0 + 1)

/-- Lines 178-185: the unlock bookkeeping once the completion count of the
current stage exceeds the threshold.  `max_unlocked` is raised to
`self.stages.index(self.level) + 2` if larger, and unless balancing by
steps the weight array becomes all ones with the last entry equal to the
new `max_unlocked`. -/
def unlockUpdate (s : State) : Option String × State :=
  match s.level with
  | none => (some "AttributeError: object has no attribute level", s)
  | some lvl =>
      match indexIn lvl s.stages with
      | none => (some ("ValueError: " ++ lvl ++ " is not in list"), s)
      | some j =>
          let s3 := { s with max_unlocked := max s.max_unlocked (j + 2) }
          if s3.balance_steps_per_stage = false then
            (none, { s3 with
              stages_weights :=
                List.replicate (s3.max_unlocked - 1) 1 ++
                  [(s3.max_unlocked : ℚ)] })
          else (none, s3)

/-- The `step` method (lines 159-186).  The delegated `self.env.step`
result is external; `flag` is the `self.env._flag_get` signal it exposes.
A `None` active instance fails before any mutation.  A `None`
`stage_index` (no reset yet) makes the numpy `arr[None] += 1` updates hit
every entry, and the subsequent scalar comparison raises unless the array
has exactly one entry. -/
def step (flag : Bool) (s : State) : Option String × State :=
  match s.env with
  | none => (some "AttributeError: NoneType object has no attribute step", s)
  | some _ =>
      match s.stage_index with
      | some i =>
          let s1 := { s with steps_per_stage := incAt s.steps_per_stage i }
          if s1.unlock_stages ≠ 0 ∧ flag = true then
            let s2 := { s1 with count_finished := incAt s1.count_finished i }
            if s2.unlock_stages < s2.count_finished.getD i 0 then
              unlockUpdate s2
            else (none, s2)
          else (none, s1)
      | none =>
          let s1 := { s with steps_per_stage := s.steps_per_stage.map (· + 1) }
          if s1.unlock_stages ≠ 0 ∧ flag = true then
            let s2 := { s1 with count_finished := s1.count_finished.map (· + 1) }
            if s2.count_finished.length = 1 then
              if s2.unlock_stages < s2.count_finished.getD 0 0 then
                unlockUpdate s2
              else (none, s2)
            else (some "ValueError: truth value of an array is ambiguous", s2)
          else (none, s1)

/-- Result of `close`: the error raised if any, the state afterwards, the
instances whose own `close` was invoked in grid order, and whether the
render viewer was released. -/
structure CloseResult where
  err : Option String
  state : State
  closed : List (Nat × Nat)
  viewerClosed : Bool

/-- The `close` method (lines 188-204): raise if the active-instance
reference is already `None`; otherwise close every built instance of the
grid (skipping absent slots), clear the reference, and release the viewer
when one exists. -/
def close (s : State) : CloseResult :=
  match s.env with
  | none => ⟨some "ValueError: env has already been closed.", s, [], false⟩
  | some _ =>
      ⟨none, { s with env := none },
        (s.envs.map fun row => row.filterMap id).flatten, s.viewer.isSome⟩

/-- One public operation on the wrapper. -/
inductive Op where
  | reset (sd : Option Nat) (options : Option (Option (List String)))
  | step (flag : Bool)
  | seed (sd : Option Nat)
  | close

/-- Apply one operation; a raised exception propagates to the caller while
the object keeps the mutations made before the raise. -/
def applyOp (log : ℚ → ℚ) (o : Op) (s : State) : State :=
  match o with
  | Op.reset sd opts => (reset log sd opts s).state
  | Op.step flag => (step flag s).2
  | Op.seed sd => (seed sd s).2
  | Op.close => (close s).state

/-- Run a sequence of operations from a state. -/
def run (log : ℚ → ℚ) (ops : List Op) (s : State) : State :=
  ops.foldl (fun t o => applyOp log o t) s

/-- Iterated flag-reached steps. -/
def flagSteps : Nat → State → State
  | 0, s => s
  | n + 1, s => flagSteps n (step true s).2

/-! Frame lemmas: which attributes each operation leaves untouched. -/

theorem run_nil (log : ℚ → ℚ) (s : State) : run log [] s = s := rfl

theorem run_cons (log : ℚ → ℚ) (o : Op) (os : List Op) (s : State) :
    run log (o :: os) s = run log os (applyOp log o s) := rfl

theorem reset_state_stages (log : ℚ → ℚ) (sd : Option Nat)
    (opts : Option (Option (List String))) (s : State) :
    (reset log sd opts s).state.stages = s.stages := by
  cases sd <;> rfl

theorem reset_state_envs (log : ℚ → ℚ) (sd : Option Nat)
    (opts : Option (Option (List String))) (s : State) :
    (reset log sd opts s).state.envs = s.envs := by
  cases sd <;> rfl

theorem reset_state_unlock (log : ℚ → ℚ) (sd : Option Nat)
    (opts : Option (Option (List String))) (s : State) :
    (reset log sd opts s).state.unlock_stages = s.unlock_stages := by
  cases sd <;> rfl

theorem reset_state_balance (log : ℚ → ℚ) (sd : Option Nat)
    (opts : Option (Option (List String))) (s : State) :
    (reset log sd opts s).state.balance_steps_per_stage =
      s.balance_steps_per_stage := by
  cases sd <;> rfl

theorem reset_state_max (log : ℚ → ℚ) (sd : Option Nat)
    (opts : Option (Option (List String))) (s : State) :
    (reset log sd opts s).state.max_unlocked = s.max_unlocked := by
  cases sd <;> rfl

theorem reset_state_steps (log : ℚ → ℚ) (sd : Option Nat)
    (opts : Option (Option (List String))) (s : State) :
    (reset log sd opts s).state.steps_per_stage = s.steps_per_stage := by
  cases sd <;> rfl

theorem reset_state_count (log : ℚ → ℚ) (sd : Option Nat)
    (opts : Option (Option (List String))) (s : State) :
    (reset log sd opts s).state.count_finished = s.count_finished := by
  cases sd <;> rfl

theorem step_snd_stages (f : Bool) (s : State) :
    (step f s).2.stages = s.stages := by
  unfold step unlockUpdate
  dsimp only
  repeat' split
  all_goals rfl

theorem step_snd_envs (f : Bool) (s : State) :
    (step f s).2.envs = s.envs := by
  unfold step unlockUpdate
  dsimp only
  repeat' split
  all_goals rfl

theorem step_snd_unlock (f : Bool) (s : State) :
    (step f s).2.unlock_stages = s.unlock_stages := by
  unfold step unlockUpdate
  dsimp only
  repeat' split
  all_goals rfl

theorem step_snd_balance (f : Bool) (s : State) :
    (step f s).2.balance_steps_per_stage = s.balance_steps_per_stage := by
  unfold step unlockUpdate
  dsimp only
  repeat' split
  all_goals rfl

theorem close_state_stages (s : State) : (close s).state.stages = s.stages := by
  unfold close; split <;> rfl

theorem close_state_unlock (s : State) :
    (close s).state.unlock_stages = s.unlock_stages := by
  unfold close; split <;> rfl

theorem close_state_max (s : State) :
    (close s).state.max_unlocked = s.max_unlocked := by
  unfold close; split <;> rfl

theorem close_state_balance (s : State) :
    (close s).state.balance_steps_per_stage = s.balance_steps_per_stage := by
  unfold close; split <;> rfl

theorem close_state_weights (s : State) :
    (close s).state.stages_weights = s.stages_weights := by
  unfold close; split <;> rfl

theorem seed_snd_of_none (s : State) : (seed none s).2 = s := rfl

theorem applyOp_stages (log : ℚ → ℚ) (o : Op) (s : State) :
    (applyOp log o s).stages = s.stages := by
  cases o with
  | reset sd opts => exact reset_state_stages log sd opts s
  | step f => exact step_snd_stages f s
  | seed sd => cases sd <;> rfl
  | close => exact close_state_stages s

theorem applyOp_unlock (log : ℚ → ℚ) (o : Op) (s : State) :
    (applyOp log o s).unlock_stages = s.unlock_stages := by
  cases o with
  | reset sd opts => exact reset_state_unlock log sd opts s
  | step f => exact step_snd_unlock f s
  | seed sd => cases sd <;> rfl
  | close => exact close_state_unlock s

theorem applyOp_balance (log : ℚ → ℚ) (o : Op) (s : State) :
    (applyOp log o s).balance_steps_per_stage = s.balance_steps_per_stage := by
  cases o with
  | reset sd opts => exact reset_state_balance log sd opts s
  | step f => exact step_snd_balance f s
  | seed sd => cases sd <;> rfl
  | close => exact close_state_balance s

/-- Invariant preservation along a run of operations. -/
theorem run_invariant (log : ℚ → ℚ) (P : State → Prop)
    (hstep : ∀ o s, P s → P (applyOp log o s)) :
    ∀ (ops : List Op) (s : State), P s → P (run log ops s) := by
  intro ops
  induction ops with
  | nil => intro s h; exact h
  | cons o os ih => intro s h; exact ih _ (hstep o s h)

/-- Position returned by `list.index` is a valid index. -/
theorem indexIn_lt_length :
    ∀ (l : List String) (lvl : String) (j : Nat),
      indexIn lvl l = some j → j < l.length := by
  intro l
  induction l with
  | nil => intro lvl j h; simp [indexIn] at h
  | cons x xs ih =>
      intro lvl j h
      by_cases hx : x = lvl
      · simp only [indexIn, if_pos hx, Option.some.injEq] at h
        simp only [List.length_cons]
        omega
      · simp only [indexIn, if_neg hx, Option.map_eq_some'] at h
        obtain ⟨j', hj', rfl⟩ := h
        have := ih lvl j' hj'
        simp only [List.length_cons]
        omega

/-- The unlock bookkeeping never decreases `max_unlocked`. -/
theorem unlockUpdate_max_mono (s : State) :
    s.max_unlocked ≤ (unlockUpdate s).2.max_unlocked := by
  unfold unlockUpdate
  cases hl : s.level with
  | none => exact Nat.le_refl _
  | some lvl =>
      dsimp only
      cases hi : indexIn lvl s.stages with
      | none => exact Nat.le_refl _
      | some j =>
          dsimp only
          split
          · exact le_sup_left
          · exact le_sup_left

/-- A step never decreases `max_unlocked`. -/
theorem step_max_mono (f : Bool) (s : State) :
    s.max_unlocked ≤ (step f s).2.max_unlocked := by
  unfold step
  dsimp only
  repeat' split
  all_goals first
    | exact Nat.le_refl _
    | (refine le_of_eq_of_le ?_ (unlockUpdate_max_mono _); rfl)

theorem applyOp_max_mono (log : ℚ → ℚ) (o : Op) (s : State) :
    s.max_unlocked ≤ (applyOp log o s).max_unlocked := by
  cases o with
  | reset sd opts => simp only [applyOp]; rw [reset_state_max]
  | step f => exact step_max_mono f s
  | seed sd => cases sd <;> simp [applyOp, seed]
  | close => simp only [applyOp]; rw [close_state_max]

/-- The unlock bookkeeping keeps `max_unlocked` within one past the
stage-set size, because the looked-up index is a valid position. -/
theorem unlockUpdate_max_le (s : State)
    (h : s.max_unlocked ≤ s.stages.length + 1) :
    (unlockUpdate s).2.max_unlocked ≤ s.stages.length + 1 := by
  unfold unlockUpdate
  cases hl : s.level with
  | none => exact h
  | some lvl =>
      dsimp only
      cases hi : indexIn lvl s.stages with
      | none => exact h
      | some j =>
          have hj := indexIn_lt_length s.stages lvl j hi
          dsimp only
          split
          · exact sup_le h (by omega)
          · exact sup_le h (by omega)

/-- A step keeps `max_unlocked` within one past the stage-set size. -/
theorem step_max_le (f : Bool) (s : State)
    (h : s.max_unlocked ≤ s.stages.length + 1) :
    (step f s).2.max_unlocked ≤ s.stages.length + 1 := by
  unfold step
  dsimp only
  repeat' split
  all_goals first
    | exact h
    | exact unlockUpdate_max_le _ h

theorem applyOp_max_le (log : ℚ → ℚ) (o : Op) (s : State)
    (h : s.max_unlocked ≤ s.stages.length + 1) :
    (applyOp log o s).max_unlocked ≤ s.stages.length + 1 := by
  cases o with
  | reset sd opts => simp only [applyOp]; rw [reset_state_max]; exact h
  | step f => exact step_max_le f s h
  | seed sd => cases sd <;> simpa [applyOp, seed] using h
  | close => simp only [applyOp]; rw [close_state_max]; exact h

/-- With the curriculum disabled a step never touches `max_unlocked`. -/
theorem step_max_of_unlock0 (f : Bool) (s : State) (h : s.unlock_stages = 0) :
    (step f s).2.max_unlocked = s.max_unlocked := by
  unfold step
  dsimp only
  repeat' split
  all_goals simp_all

theorem applyOp_max_of_unlock0 (log : ℚ → ℚ) (o : Op) (s : State)
    (h : s.unlock_stages = 0) :
    (applyOp log o s).max_unlocked = s.max_unlocked := by
  cases o with
  | reset sd opts => exact reset_state_max log sd opts s
  | step f => exact step_max_of_unlock0 f s h
  | seed sd => cases sd <;> rfl
  | close => exact close_state_max s

/-- C8: after a first `close()` that succeeded, a second `close()` raises
`ValueError: env has already been closed.` instead of being tolerated. -/
theorem close_twice_raises (s : State) (h : (close s).err = none) :
    (close (close s).state).err =
      some "ValueError: env has already been closed." := by
  cases henv : s.env with
  | none => simp [close, henv] at h
  | some t => simp [close, henv]

/-- A state with a bound active instance, as produced by constructing with
the stage set `["1-1"]` and curriculum disabled. -/
def sampleState : State :=
  { envs := [[some (1, 1)]]
    env := some (1, 1)
    viewer := none
    stages := ["1-1"]
    unlock_stages := 0
    max_unlocked := 1
    stages_weights := [1]
    count_finished := [0]
    steps_per_stage := [0]
    balance_steps_per_stage := false
    stage_index := none
    level := none
    np_random := ⟨0⟩ }

/-- Witness for C8 at a concrete state whose first close succeeds. -/
theorem close_twice_raises_witness :
    (close (close sampleState).state).err =
      some "ValueError: env has already been closed." :=
  close_twice_raises sampleState rfl

/-- C9: with `unlock_stages` disabled (the falsy coercion `0`),
`max_unlocked` equals the full stage-set length right after construction
and is never changed by any later sequence of operations. -/
theorem unlock_disabled_max_constant (log : ℚ → ℚ) (stages : List String)
    (b : Bool) (r : RandomState) (s0 : State)
    (h : init (some stages) 0 b r = Except.ok s0) :
    s0.max_unlocked = stages.length ∧
      ∀ ops : List Op, (run log ops s0).max_unlocked = stages.length := by
  have hfields : s0.unlock_stages = 0 ∧ s0.max_unlocked = stages.length := by
    simp only [init, Except.ok.injEq] at h
    subst h
    exact ⟨rfl, by simp⟩
  refine ⟨hfields.2, ?_⟩
  intro ops
  exact (run_invariant log
      (fun s => s.unlock_stages = 0 ∧ s.max_unlocked = stages.length)
      (fun o s hs => ⟨by rw [applyOp_unlock]; exact hs.1,
        by rw [applyOp_max_of_unlock0 log o s hs.1]; exact hs.2⟩)
      ops s0 hfields).2

/-- Witness for C9: a concrete construction with two stages, run through a
reset, a step and a close. -/
theorem unlock_disabled_max_constant_witness :
    ∃ s0 : State,
      init (some ["1-1", "1-2"]) 0 false ⟨0⟩ = Except.ok s0 ∧
      (run (fun q => q) [Op.seed (some 3), Op.close] s0).max_unlocked = 2 := by
  cases hinit : init (some ["1-1", "1-2"]) 0 false ⟨0⟩ with
  | error e => simp [init] at hinit
  | ok s0 =>
      refine ⟨s0, rfl, ?_⟩
      have h := unlock_disabled_max_constant (fun q => q) ["1-1", "1-2"]
        false ⟨0⟩ s0 hinit
      simpa using h.2 [Op.seed (some 3), Op.close]

/-- The instance grid built by a construction with stage set `["1-1"]`. -/
def cexGrid : Grid :=
  [[some (1, 1), none, none, none],
   [none, none, none, none],
   [none, none, none, none],
   [none, none, none, none],
   [none, none, none, none],
   [none, none, none, none],
   [none, none, none, none],
   [none, none, none, none]]

/-- The state produced by `init (some ["1-1"]) 1 false ⟨0⟩`: a singleton
stage set with the curriculum threshold 1 and no step balancing. -/
def cexC1 : State :=
  { envs := cexGrid
    env := some (1, 1)
    viewer := none
    stages := ["1-1"]
    unlock_stages := 1
    max_unlocked := 1
    stages_weights := [1]
    count_finished := [0]
    steps_per_stage := [0]
    balance_steps_per_stage := false
    stage_index := none
    level := none
    np_random := ⟨0⟩ }

/-- The state after `reset(seed=0)` on `cexC1`: the only stage `"1-1"` is
selected and bound. -/
theorem reset_cexC1 :
    (reset (fun q => q) (some 0) none cexC1).state =
      { cexC1 with
        np_random := ⟨74⟩
        level := some "1-1"
        stage_index := some 0
        env := some (1, 1) } := by
  norm_num [reset, seed, chooseSel, effectiveStages, selectStage, afterWeights, applySel,
    RandomState.choiceW, RandomState.seedWith, RandomState.next, pickIndex,
    cexC1,
    show indexIn "1-1" ["1-1"] = some 0 from rfl,
    show parseLevel "1-1" = some (0, 0) from rfl,
    show gridLookup cexGrid 0 0 = some (some (1, 1)) from rfl]

/-- C1 is refuted on the code: from a construction with the single stage
`"1-1"` and `unlock_stages = 1`, a seeded reset followed by two
flag-reached steps drives `max_unlocked` to `2`, strictly above the
stage-set size `1` (the source takes `max` with `index + 2` and never
clamps to the stage-set length). -/
theorem max_unlocked_can_exceed_stage_count :
    init (some ["1-1"]) 1 false ⟨0⟩ = Except.ok cexC1 ∧
    (run (fun q => q) [Op.reset (some 0) none, Op.step true, Op.step true]
        cexC1).max_unlocked = 2 ∧
    List.length ["1-1"] = 1 := by
  refine ⟨rfl, ?_, rfl⟩
  show (step true (step true
      (reset (fun q => q) (some 0) none cexC1).state).2).2.max_unlocked = 2
  rw [reset_cexC1]
  rfl

/-- C1 (amended): across every sequence of operations after a successful
construction, `max_unlocked` is monotonically non-decreasing, and it is
bounded by the stage-set size plus one (the source can push it exactly one
past the size when the final stage of the set is the one completed). -/
theorem max_unlocked_monotone_and_bounded (log : ℚ → ℚ)
    (stages : List String) (u : Nat) (b : Bool) (r : RandomState) (s0 : State)
    (h : init (some stages) u b r = Except.ok s0) :
    (∀ (ops : List Op) (o : Op),
        (run log ops s0).max_unlocked ≤
          (applyOp log o (run log ops s0)).max_unlocked) ∧
      ∀ ops : List Op, (run log ops s0).max_unlocked ≤ stages.length + 1 := by
  have hfields : s0.stages = stages ∧ s0.max_unlocked ≤ stages.length + 1 := by
    simp only [init, Except.ok.injEq] at h
    subst h
    refine ⟨rfl, ?_⟩
    by_cases hu : u ≠ 0 <;> simp [hu]
  constructor
  · intro ops o
    exact applyOp_max_mono log o _
  · intro ops
    have hinv := run_invariant log
      (fun s => s.stages = stages ∧ s.max_unlocked ≤ stages.length + 1)
      (fun o s hs => by
        refine ⟨by rw [applyOp_stages]; exact hs.1, ?_⟩
        have h2 : s.max_unlocked ≤ s.stages.length + 1 := by
          rw [hs.1]; exact hs.2
        have h3 := applyOp_max_le log o s h2
        rw [hs.1] at h3
        exact h3)
      ops s0 hfields
    exact hinv.2

/-- Witness for the amended C1 at a concrete construction. -/
theorem max_unlocked_monotone_and_bounded_witness :
    (run (fun q => q) [] cexC1).max_unlocked ≤
        (applyOp (fun q => q) Op.close (run (fun q => q) [] cexC1)).max_unlocked ∧
      (run (fun q => q) [] cexC1).max_unlocked ≤ List.length ["1-1"] + 1 := by
  have h := max_unlocked_monotone_and_bounded (fun q => q) ["1-1"] 1 false
    ⟨0⟩ cexC1 rfl
  exact ⟨h.1 [] Op.close, h.2 []⟩

theorem incAt_length (l : List Nat) (i : Nat) :
    (incAt l i).length = l.length := by
  simp [incAt]

theorem incAt_getD_self : ∀ (l : List Nat) (i : Nat), i < l.length →
    (incAt l i).getD i 0 = l.getD i 0 + 1 := by
  intro l
  induction l with
  | nil => intro i h; simp at h
  | cons x xs ih =>
      intro i h
      cases i with
      | zero => rfl
      | succ n =>
          have h' : n < xs.length := by
            simp only [List.length_cons] at h
            omega
          exact ih n h'

theorem flagSteps_succ_right :
    ∀ (n : Nat) (s : State),
      flagSteps (n + 1) s = (step true (flagSteps n s)).2 := by
  intro n
  induction n with
  | zero => intro s; rfl
  | succ n ih => intro s; exact ih (step true s).2

/-- Evaluation of one flag-reached step when an instance and a stage index
are bound and the curriculum is enabled. -/
theorem step_flag_eval (t : State) (i : Nat)
    (he : ∃ e, t.env = some e) (hsi : t.stage_index = some i)
    (hu : t.unlock_stages ≠ 0) (hil : i < t.count_finished.length) :
    (step true t).2 =
      (if t.unlock_stages < t.count_finished.getD i 0 + 1 then
        (unlockUpdate { t with
            steps_per_stage := incAt t.steps_per_stage i
            count_finished := incAt t.count_finished i }).2
      else { t with
          steps_per_stage := incAt t.steps_per_stage i
          count_finished := incAt t.count_finished i }) := by
  obtain ⟨e, he⟩ := he
  unfold step
  rw [he]
  dsimp only
  rw [hsi]
  dsimp only
  rw [incAt_getD_self t.count_finished i hil]
  rw [if_pos (show t.unlock_stages ≠ 0 ∧ true = true from ⟨hu, rfl⟩)]
  split
  · rfl
  · rfl

/-- Evaluation of the unlock bookkeeping when the level is bound, occurs in
the constructor stage set, and balancing is off. -/
theorem unlockUpdate_eval (t : State) (i : Nat) (lvl : String)
    (hlv : t.level = some lvl) (hidx : indexIn lvl t.stages = some i)
    (hb : t.balance_steps_per_stage = false) :
    (unlockUpdate t).2 = { t with
      max_unlocked := max t.max_unlocked (i + 2)
      stages_weights :=
        List.replicate (max t.max_unlocked (i + 2) - 1) 1 ++
          [((max t.max_unlocked (i + 2) : Nat) : ℚ)] } := by
  unfold unlockUpdate
  rw [hlv]
  dsimp only
  rw [hidx]
  dsimp only
  split
  · rfl
  · rename_i hcontra
    exact absurd hb hcontra

/-- C2 (amended): with `unlock_stages = k ≥ 1` and no step balancing, doing
flag-reached steps on the newest unlocked stage leaves `max_unlocked`
untouched for the first `k` of them; the `(k+1)`-st raises it by exactly
one — which can exceed the stage-set length by one (it is only bounded by
the length plus one) — and `stages_weights` becomes the all-ones array of
the new length with the final entry equal to that new length. -/
theorem unlock_after_threshold (k : Nat) (s : State) (i : Nat) (lvl : String)
    (hk : 1 ≤ k)
    (hu : s.unlock_stages = k)
    (hb : s.balance_steps_per_stage = false)
    (henv : ∃ e, s.env = some e)
    (hsi : s.stage_index = some i)
    (hlv : s.level = some lvl)
    (hidx : indexIn lvl s.stages = some i)
    (hnew : i + 1 = s.max_unlocked)
    (hcnt : s.count_finished.getD i 0 = 0)
    (hlen : i < s.count_finished.length) :
    (∀ j, j ≤ k → (flagSteps j s).max_unlocked = s.max_unlocked) ∧
      (flagSteps (k + 1) s).max_unlocked = s.max_unlocked + 1 ∧
      (flagSteps (k + 1) s).max_unlocked ≤ s.stages.length + 1 ∧
      (flagSteps (k + 1) s).stages_weights =
        List.replicate s.max_unlocked 1 ++
          [((s.max_unlocked + 1 : Nat) : ℚ)] := by
  obtain ⟨e, henv⟩ := henv
  have key : ∀ j, j ≤ k →
      (flagSteps j s).env = s.env ∧
      (flagSteps j s).stage_index = s.stage_index ∧
      (flagSteps j s).level = s.level ∧
      (flagSteps j s).stages = s.stages ∧
      (flagSteps j s).unlock_stages = s.unlock_stages ∧
      (flagSteps j s).balance_steps_per_stage = s.balance_steps_per_stage ∧
      (flagSteps j s).max_unlocked = s.max_unlocked ∧
      (flagSteps j s).count_finished.getD i 0 = j ∧
      (flagSteps j s).count_finished.length = s.count_finished.length := by
    intro j
    induction j with
    | zero =>
        intro _
        exact ⟨rfl, rfl, rfl, rfl, rfl, rfl, rfl, hcnt, rfl⟩
    | succ j ih =>
        intro hj
        obtain ⟨k1, k2, k3, k4, k5, k6, k7, k8, k9⟩ := ih (by omega)
        rw [flagSteps_succ_right]
        rw [step_flag_eval (flagSteps j s) i ⟨e, by rw [k1, henv]⟩
          (by rw [k2, hsi]) (by rw [k5, hu]; omega) (by rw [k9]; exact hlen)]
        rw [if_neg (by rw [k5, k8, hu]; omega)]
        refine ⟨k1, k2, k3, k4, k5, k6, k7, ?_, ?_⟩
        · rw [incAt_getD_self _ _ (by rw [k9]; exact hlen), k8]
        · rw [incAt_length, k9]
  obtain ⟨k1, k2, k3, k4, k5, k6, k7, k8, k9⟩ := key k (Nat.le_refl k)
  have hfin : flagSteps (k + 1) s =
      (unlockUpdate { flagSteps k s with
          steps_per_stage := incAt (flagSteps k s).steps_per_stage i
          count_finished := incAt (flagSteps k s).count_finished i }).2 := by
    rw [flagSteps_succ_right]
    rw [step_flag_eval (flagSteps k s) i ⟨e, by rw [k1, henv]⟩
      (by rw [k2, hsi]) (by rw [k5, hu]; omega) (by rw [k9]; exact hlen)]
    rw [if_pos (by rw [k5, k8, hu]; omega)]
  have hmax : max (flagSteps k s).max_unlocked (i + 2) = s.max_unlocked + 1 := by
    rw [k7]
    omega
  have hev := unlockUpdate_eval
    { flagSteps k s with
        steps_per_stage := incAt (flagSteps k s).steps_per_stage i
        count_finished := incAt (flagSteps k s).count_finished i }
    i lvl (by dsimp only; rw [k3, hlv]) (by dsimp only; rw [k4]; exact hidx)
    (by dsimp only; rw [k6, hb])
  have hi := indexIn_lt_length s.stages lvl i hidx
  refine ⟨fun j hj => ((key j hj).2.2.2.2.2.2).1, ?_, ?_, ?_⟩
  · rw [hfin, hev]
    dsimp only
    rw [hmax]
  · rw [hfin, hev]
    dsimp only
    rw [hmax]
    omega
  · rw [hfin, hev]
    dsimp only
    rw [hmax]
    norm_num

/-- A mid-episode state over the stage set `["1-1", "1-2"]` with threshold
`1`, bound to the newest unlocked stage `"1-1"`. -/
def c2WitnessState : State :=
  { envs := cexGrid
    env := some (1, 1)
    viewer := none
    stages := ["1-1", "1-2"]
    unlock_stages := 1
    max_unlocked := 1
    stages_weights := [1]
    count_finished := [0, 0]
    steps_per_stage := [0, 0]
    balance_steps_per_stage := false
    stage_index := some 0
    level := some "1-1"
    np_random := ⟨0⟩ }

/-- Witness for the amended C2: two stages, threshold `1`; after one
flag-reached step nothing changes, after the second the bound rises to `2`
and the weights become `[1, 2]`. -/
theorem unlock_after_threshold_witness :
    (flagSteps 1 c2WitnessState).max_unlocked = 1 ∧
      (flagSteps 2 c2WitnessState).max_unlocked = 2 ∧
      (flagSteps 2 c2WitnessState).stages_weights = [1, (2 : ℚ)] := by
  have h := unlock_after_threshold 1 c2WitnessState 0 "1-1"
    (Nat.le_refl 1) rfl rfl ⟨(1, 1), rfl⟩ rfl rfl rfl rfl rfl
    (by norm_num [c2WitnessState])
  refine ⟨h.1 1 (Nat.le_refl 1), h.2.1, ?_⟩
  have h3 := h.2.2.2
  norm_num [c2WitnessState] at h3
  exact h3

/-- C2 as stated is refuted: with the singleton stage set `["1-1"]` and
`unlock_stages = 1`, the second flag-reached step on the newest (only)
stage raises `max_unlocked` to `2`, which is not bounded by the stage-set
length `1`. -/
theorem unlock_increase_not_bounded :
    init (some ["1-1"]) 1 false ⟨0⟩ = Except.ok cexC1 ∧
    (flagSteps 2 (reset (fun q => q) (some 0) none cexC1).state).max_unlocked
        = 2 ∧
    ¬ ((flagSteps 2
          (reset (fun q => q) (some 0) none cexC1).state).max_unlocked ≤
        List.length ["1-1"]) := by
  have h2 : (flagSteps 2
      (reset (fun q => q) (some 0) none cexC1).state).max_unlocked = 2 := by
    rw [reset_cexC1]
    rfl
  exact ⟨rfl, h2, by rw [h2]; norm_num⟩

theorem afterWeights_weightsNew (l : List String) (m : Nat) (wcur : List ℚ)
    (ctor : List String) (grid : Grid) (rng : RandomState)
    (wNew : Option (List ℚ)) :
    (afterWeights l m wcur ctor grid rng wNew).weightsNew = wNew := by
  unfold afterWeights
  dsimp only
  repeat' split
  all_goals rfl

theorem uniformSelect_weightsNew (grid : Grid) (rng : RandomState) :
    (uniformSelect grid rng).weightsNew = none := by
  unfold uniformSelect
  dsimp only
  repeat' split
  all_goals rfl

theorem chooseSel_weightsNew_of_false (log : ℚ → ℚ)
    (opts : Option (Option (List String))) (s1 : State)
    (hb : s1.balance_steps_per_stage = false) :
    (chooseSel log opts s1).weightsNew = none := by
  unfold chooseSel
  split
  · split
    · rw [hb]
      simp [selectStage, afterWeights_weightsNew]
    · exact uniformSelect_weightsNew _ _
  · exact uniformSelect_weightsNew _ _

/-- Without step balancing, a reset never reassigns the weight array. -/
theorem reset_weights_of_not_balance (log : ℚ → ℚ) (sd : Option Nat)
    (opts : Option (Option (List String))) (s : State)
    (hb : s.balance_steps_per_stage = false) :
    (reset log sd opts s).state.stages_weights = s.stages_weights := by
  have hb1 : ((seed sd s).2).balance_steps_per_stage = false := by
    cases sd <;> exact hb
  have h := chooseSel_weightsNew_of_false log opts ((seed sd s).2) hb1
  show ((chooseSel log opts ((seed sd s).2)).weightsNew.getD
    ((seed sd s).2).stages_weights) = s.stages_weights
  rw [h]
  cases sd <;> rfl

/-- Without step balancing, the unlock bookkeeping keeps the weight-array
length equal to `max_unlocked`. -/
theorem unlockUpdate_weights_len (s : State)
    (hb : s.balance_steps_per_stage = false)
    (hinv : s.stages_weights.length = s.max_unlocked) :
    (unlockUpdate s).2.stages_weights.length =
      (unlockUpdate s).2.max_unlocked := by
  unfold unlockUpdate
  cases hl : s.level with
  | none => exact hinv
  | some lvl =>
      dsimp only
      cases hi : indexIn lvl s.stages with
      | none => exact hinv
      | some j =>
          dsimp only
          split
          · have h1 : 1 ≤ max s.max_unlocked (j + 2) :=
              le_trans (by omega) (le_sup_right)
            simp only [List.length_append, List.length_replicate,
              List.length_cons, List.length_nil]
            omega
          · rename_i hcontra
            exact absurd hb hcontra

theorem step_weights_len_of_false (f : Bool) (s : State)
    (hb : s.balance_steps_per_stage = false)
    (hinv : s.stages_weights.length = s.max_unlocked) :
    (step f s).2.stages_weights.length = (step f s).2.max_unlocked := by
  unfold step
  dsimp only
  repeat' split
  all_goals first
    | exact hinv
    | exact unlockUpdate_weights_len _ hb hinv

theorem applyOp_weights_len_of_false (log : ℚ → ℚ) (o : Op) (s : State)
    (hb : s.balance_steps_per_stage = false)
    (hinv : s.stages_weights.length = s.max_unlocked) :
    (applyOp log o s).stages_weights.length =
      (applyOp log o s).max_unlocked := by
  cases o with
  | reset sd opts =>
      show (reset log sd opts s).state.stages_weights.length =
        (reset log sd opts s).state.max_unlocked
      rw [reset_weights_of_not_balance log sd opts s hb, reset_state_max]
      exact hinv
  | step f => exact step_weights_len_of_false f s hb hinv
  | seed sd => cases sd <;> exact hinv
  | close =>
      show (close s).state.stages_weights.length = (close s).state.max_unlocked
      rw [close_state_weights, close_state_max]
      exact hinv

/-- C5 (amended): with `balance_steps_per_stage` disabled, the length of
`stages_weights` equals `max_unlocked` after construction and after every
sequence of operations.  (With balancing enabled the invariant fails: a
step that raises `max_unlocked` leaves the weight array at its old
length.) -/
theorem weights_length_tracks_max_unlocked (log : ℚ → ℚ)
    (stages : List String) (u : Nat) (r : RandomState) (s0 : State)
    (h : init (some stages) u false r = Except.ok s0) :
    ∀ ops : List Op,
      (run log ops s0).stages_weights.length =
        (run log ops s0).max_unlocked := by
  have hfields : s0.balance_steps_per_stage = false ∧
      s0.stages_weights.length = s0.max_unlocked := by
    simp only [init, Except.ok.injEq] at h
    subst h
    exact ⟨rfl, by simp⟩
  intro ops
  exact (run_invariant log
    (fun s => s.balance_steps_per_stage = false ∧
      s.stages_weights.length = s.max_unlocked)
    (fun o s hs => ⟨by rw [applyOp_balance]; exact hs.1,
      applyOp_weights_len_of_false log o s hs.1 hs.2⟩)
    ops s0 hfields).2

/-- Witness for the amended C5 at a concrete construction. -/
theorem weights_length_tracks_max_unlocked_witness :
    ∃ s0 : State,
      init (some ["1-1"]) 0 false ⟨0⟩ = Except.ok s0 ∧
      (run (fun q => q) [Op.close] s0).stages_weights.length =
        (run (fun q => q) [Op.close] s0).max_unlocked := by
  cases hinit : init (some ["1-1"]) 0 false ⟨0⟩ with
  | error e => simp [init] at hinit
  | ok s0 =>
      exact ⟨s0, rfl,
        weights_length_tracks_max_unlocked (fun q => q) ["1-1"] 0 ⟨0⟩ s0
          hinit [Op.close]⟩

/-- The state produced by `init (some ["1-1"]) 1 true ⟨0⟩`: like `cexC1`
but with step balancing enabled. -/
def cexC5 : State :=
  { envs := cexGrid
    env := some (1, 1)
    viewer := none
    stages := ["1-1"]
    unlock_stages := 1
    max_unlocked := 1
    stages_weights := [1]
    count_finished := [0]
    steps_per_stage := [0]
    balance_steps_per_stage := true
    stage_index := none
    level := none
    np_random := ⟨0⟩ }

/-- The state after `reset(seed=0)` on `cexC5` with the log model
`fun _ => 0`: the balancing branch reassigns the weight array. -/
theorem reset_cexC5 :
    (reset (fun _ => (0 : ℚ)) (some 0) none cexC5).state =
      { cexC5 with
        np_random := ⟨74⟩
        stages_weights := [1000000]
        level := some "1-1"
        stage_index := some 0
        env := some (1, 1) } := by
  norm_num [reset, seed, chooseSel, effectiveStages, selectStage, afterWeights, applySel,
    RandomState.choiceW, RandomState.seedWith, RandomState.next, pickIndex,
    lastD, balanceWeight, cexC5,
    show indexIn "1-1" ["1-1"] = some 0 from rfl,
    show parseLevel "1-1" = some (0, 0) from rfl,
    show gridLookup cexGrid 0 0 = some (some (1, 1)) from rfl]

/-- The state reached from `cexC5` by a seeded reset and two flag-reached
steps. -/
def cexC5run : State :=
  flagSteps 2 (reset (fun _ => (0 : ℚ)) (some 0) none cexC5).state

/-- C5 is refuted on the code: with balancing enabled, the unlocking step
raises `max_unlocked` to `2` while `stages_weights` keeps its old length
`1`, so the two disagree until the next reset. -/
theorem weights_length_desyncs_when_balancing :
    init (some ["1-1"]) 1 true ⟨0⟩ = Except.ok cexC5 ∧
    cexC5run.stages_weights.length = 1 ∧
    cexC5run.max_unlocked = 2 ∧
    ¬ (cexC5run.stages_weights.length = cexC5run.max_unlocked) := by
  have ha : cexC5run.stages_weights.length = 1 := by
    unfold cexC5run
    rw [reset_cexC5]
    rfl
  have hb : cexC5run.max_unlocked = 2 := by
    unfold cexC5run
    rw [reset_cexC5]
    rfl
  exact ⟨rfl, ha, hb, by rw [ha, hb]; norm_num⟩

/-- C3: the claim is right about the intended design but the code breaks
it.  With `stages` absent (`None`, its declared default) the constructor
itself raises a `TypeError` at the membership test `f"{world}-{stage}" not
in stages`, so no construction succeeds; and with `stages` an empty
sequence construction succeeds but builds no instances, so the uniform
branch of `reset` (which does pick `world ∈ [1,8]`, `stage ∈ [1,4]`)
delegates to an absent slot and raises instead of resetting an instance. -/
theorem stages_none_or_empty_breaks :
    init none 0 false ⟨0⟩ =
      Except.error "TypeError: argument of type NoneType is not iterable" ∧
    (match init (some ([] : List String)) 0 false ⟨0⟩ with
     | Except.ok s0 =>
         (reset (fun q => q) none none s0).err =
           some "AttributeError: NoneType object has no attribute reset"
     | Except.error _ => False) :=
  ⟨rfl, rfl⟩

/-- When the effective stage collection is a non-empty list, the selection
is the weighted one over it. -/
theorem chooseSel_eff_eval (log : ℚ → ℚ)
    (opts : Option (Option (List String))) (u : State) (l : List String)
    (heff : effectiveStages opts u = some l) (hl : 0 < l.length) :
    chooseSel log opts u =
      selectStage log l u.balance_steps_per_stage u.steps_per_stage
        u.max_unlocked u.stages_weights u.stages u.envs u.np_random := by
  unfold chooseSel
  rw [heff]
  dsimp only
  rw [if_pos hl]

theorem chooseSel_none_eval (log : ℚ → ℚ) (u : State)
    (h : 0 < u.stages.length) :
    chooseSel log none u =
      selectStage log u.stages u.balance_steps_per_stage u.steps_per_stage
        u.max_unlocked u.stages_weights u.stages u.envs u.np_random :=
  chooseSel_eff_eval log none u u.stages rfl h

theorem selectStage_true_ignores_w0 (log : ℚ → ℚ) (l : List String)
    (steps : List Nat) (m : Nat) (w0 w0' : List ℚ) (c : List String)
    (g : Grid) (r : RandomState) :
    selectStage log l true steps m w0 c g r =
      selectStage log l true steps m w0' c g r := rfl

/-- Selection on the next seeded reset depends only on the attributes that
a reset either reads or leaves untouched, never on the incoming random
state. -/
theorem chooseSel_none_congr (log : ℚ → ℚ) (S : Nat) (s t : State)
    (h1 : t.stages = s.stages)
    (h2 : t.balance_steps_per_stage = s.balance_steps_per_stage)
    (h3 : t.steps_per_stage = s.steps_per_stage)
    (h4 : t.max_unlocked = s.max_unlocked)
    (h5 : t.envs = s.envs)
    (h6 : s.balance_steps_per_stage = false →
      t.stages_weights = s.stages_weights)
    (hne : s.stages ≠ []) :
    chooseSel log none ((seed (some S) t).2) =
      chooseSel log none ((seed (some S) s).2) := by
  have hlen : 0 < s.stages.length := List.length_pos.mpr hne
  rw [chooseSel_none_eval log ((seed (some S) t).2)
    (by simp only [seed]; rw [h1]; exact hlen)]
  rw [chooseSel_none_eval log ((seed (some S) s).2)
    (by simp only [seed]; exact hlen)]
  simp only [seed]
  rw [h1, h2, h3, h4, h5]
  cases hb : s.balance_steps_per_stage with
  | false => rw [h6 hb]
  | true => exact selectStage_true_ignores_w0 log _ _ _ _ _ _ _ _

theorem reset_err_eq (log : ℚ → ℚ) (sd : Option Nat)
    (opts : Option (Option (List String))) (s : State) :
    (reset log sd opts s).err = (chooseSel log opts ((seed sd s).2)).err := rfl

theorem reset_selected_eq (log : ℚ → ℚ) (sd : Option Nat)
    (opts : Option (Option (List String))) (s : State) :
    (reset log sd opts s).selected =
      (chooseSel log opts ((seed sd s).2)).selected := rfl

theorem reset_level_eq (log : ℚ → ℚ) (sd : Option Nat)
    (opts : Option (Option (List String))) (s : State) :
    (reset log sd opts s).state.level =
      (match (chooseSel log opts ((seed sd s).2)).levelNew with
       | some lv => some lv
       | none => s.level) := by
  cases sd <;> rfl

/-- C6: with the curriculum disabled and an unchanged stage set, repeating
`reset(seed=S)` with the same seed `S` reproduces the same error outcome,
the same recorded level and the same delegated selection: the seeded
random source makes stage selection deterministic. -/
theorem reset_reseed_deterministic (log : ℚ → ℚ) (s : State) (S : Nat)
    (_hu : s.unlock_stages = 0) (hne : s.stages ≠ []) :
    (reset log (some S) none (reset log (some S) none s).state).err =
        (reset log (some S) none s).err ∧
      (reset log (some S) none (reset log (some S) none s).state).state.level =
        (reset log (some S) none s).state.level ∧
      (reset log (some S) none (reset log (some S) none s).state).selected =
        (reset log (some S) none s).selected := by
  have hcong := chooseSel_none_congr log S s (reset log (some S) none s).state
    (reset_state_stages log (some S) none s)
    (reset_state_balance log (some S) none s)
    (reset_state_steps log (some S) none s)
    (reset_state_max log (some S) none s)
    (reset_state_envs log (some S) none s)
    (fun hb => reset_weights_of_not_balance log (some S) none s hb)
    hne
  refine ⟨?_, ?_, ?_⟩
  · rw [reset_err_eq, reset_err_eq, hcong]
  · rw [reset_level_eq, reset_level_eq, hcong]
    cases hl : (chooseSel log none ((seed (some S) s).2)).levelNew with
    | some lv => rfl
    | none => rfl
  · rw [reset_selected_eq, reset_selected_eq, hcong]

/-- Witness for C6 at a concrete state and seed. -/
theorem reset_reseed_deterministic_witness :
    (reset (fun q => q) (some 7) none
        (reset (fun q => q) (some 7) none sampleState).state).err =
        (reset (fun q => q) (some 7) none sampleState).err ∧
      (reset (fun q => q) (some 7) none
          (reset (fun q => q) (some 7) none sampleState).state).state.level =
        (reset (fun q => q) (some 7) none sampleState).state.level ∧
      (reset (fun q => q) (some 7) none
          (reset (fun q => q) (some 7) none sampleState).state).selected =
        (reset (fun q => q) (some 7) none sampleState).selected :=
  reset_reseed_deterministic (fun q => q) sampleState 7 rfl (by decide)

theorem count_filterMap_id (l : List Slot) (x : Nat × Nat) :
    (l.filterMap id).count x = l.count (some x) := by
  induction l with
  | nil => rfl
  | cons h t ih =>
      cases h with
      | none => simp [List.filterMap_cons, List.count_cons, ih]
      | some v => simp [List.filterMap_cons, List.count_cons, ih, beq_iff_eq]

theorem sum_indicator_single (a : Nat) :
    ∀ n : Nat,
      ((List.range n).map fun w => if w = a then 1 else 0).sum =
        if a < n then 1 else 0 := by
  intro n
  induction n with
  | zero => simp
  | succ n ih =>
      rw [List.range_succ, List.map_append, List.sum_append, ih]
      by_cases h1 : a < n
      · have h2 : ¬ n = a := by omega
        have h3 : a < n + 1 := by omega
        simp [h1, h2, h3]
      · by_cases h2 : n = a
        · have h3 : a < n + 1 := by omega
          simp [h1, h2, h3]
        · have h3 : ¬ a < n + 1 := by omega
          simp [h1, h2, h3]

theorem gridOf_row_count (stages : List String) (w a b : Nat) (hb : b < 4) :
    ((List.range 4).map fun s =>
        if stages.contains (stageName (w + 1) (s + 1)) then
          some (w + 1, s + 1) else none).count (some (a + 1, b + 1)) =
      if w = a ∧ stages.contains (stageName (a + 1) (b + 1)) = true
      then 1 else 0 := by
  rw [show List.range 4 = [0, 1, 2, 3] from rfl]
  by_cases hw : w = a
  · subst hw
    interval_cases b <;>
      simp [List.count_cons, beq_iff_eq, Option.ite_none_right_eq_some, Prod.mk.injEq]
  · interval_cases b <;>
      simp [List.count_cons, beq_iff_eq, Option.ite_none_right_eq_some, Prod.mk.injEq,
        hw]

theorem gridOf_count_one (stages : List String) (a b : Nat) (ha : a < 8)
    (hb : b < 4) (hc : stages.contains (stageName (a + 1) (b + 1)) = true) :
    (((gridOf stages).map fun row => row.filterMap id)).flatten.count
        (a + 1, b + 1) = 1 := by
  unfold gridOf
  rw [show List.range 8 = [0, 1, 2, 3, 4, 5, 6, 7] from rfl]
  simp only [List.map_cons, List.map_nil, List.flatten_cons, List.flatten_nil,
    List.count_append, List.count_nil, count_filterMap_id]
  rw [gridOf_row_count stages 0 a b hb, gridOf_row_count stages 1 a b hb,
    gridOf_row_count stages 2 a b hb, gridOf_row_count stages 3 a b hb,
    gridOf_row_count stages 4 a b hb, gridOf_row_count stages 5 a b hb,
    gridOf_row_count stages 6 a b hb, gridOf_row_count stages 7 a b hb]
  simp only [hc, and_true]
  interval_cases a <;> simp

theorem gridOf_mem (stages : List String) (x : Nat × Nat) :
    some x ∈ (gridOf stages).flatten ↔
      ∃ w, w < 8 ∧ ∃ s, s < 4 ∧
        stages.contains (stageName (w + 1) (s + 1)) = true ∧
        x = (w + 1, s + 1) := by
  simp only [gridOf, List.mem_flatten, List.mem_map, List.mem_range]
  constructor
  · rintro ⟨l, ⟨w, hw, rfl⟩, hx⟩
    obtain ⟨s, ⟨hs, hx2⟩⟩ := List.mem_map.mp hx
    obtain ⟨hC, hval⟩ := Option.ite_none_right_eq_some.mp hx2
    exact ⟨w, hw, s, List.mem_range.mp hs, hC, (Option.some_inj.mp hval).symm⟩
  · rintro ⟨w, hw, s, hs, hC, rfl⟩
    refine ⟨_, ⟨w, hw, rfl⟩, ?_⟩
    refine List.mem_map.mpr ⟨s, List.mem_range.mpr hs, ?_⟩
    exact Option.ite_none_right_eq_some.mpr ⟨hC, rfl⟩

theorem mem_trace_iff (g : Grid) (x : Nat × Nat) :
    x ∈ ((g.map fun row => row.filterMap id)).flatten ↔
      some x ∈ g.flatten := by
  simp only [List.mem_flatten, List.mem_map, List.mem_filterMap, id]
  constructor
  · rintro ⟨l, ⟨row, hrow, rfl⟩, hx⟩
    obtain ⟨o, ho, rfl⟩ := List.mem_filterMap.mp hx
    exact ⟨row, hrow, ho⟩
  · rintro ⟨row, hrow, hx⟩
    exact ⟨row.filterMap id, ⟨row, hrow, rfl⟩,
      List.mem_filterMap.mpr ⟨some x, hx, rfl⟩⟩

/-- C7 (amended): for every construction whose stage set contains `"1-1"`
(so that the initial active-instance placeholder `envs[0][0]` is not
absent), the first `close()` succeeds, invokes the per-instance close
exactly once on every instance built for a named stage, never touches an
absent slot, releases the render viewer exactly when one exists, and
clears the active-instance reference. -/
theorem close_closes_each_built_once (stages : List String) (u : Nat)
    (b : Bool) (r : RandomState) (s0 : State)
    (h : init (some stages) u b r = Except.ok s0)
    (h11 : stages.contains "1-1" = true) :
    (close s0).err = none ∧
      (∀ x : Nat × Nat, some x ∈ s0.envs.flatten →
        (close s0).closed.count x = 1) ∧
      (∀ x : Nat × Nat, ¬ some x ∈ s0.envs.flatten →
        (close s0).closed.count x = 0) ∧
      (close s0).viewerClosed = s0.viewer.isSome ∧
      (close s0).state.env = none := by
  have henvs : s0.envs = gridOf stages := by
    simp only [init, Except.ok.injEq] at h
    subst h
    rfl
  have henv : s0.env = some (1, 1) := by
    simp only [init, Except.ok.injEq] at h
    subst h
    show ((gridOf stages).getD 0 []).getD 0 none = some (1, 1)
    rw [show (gridOf stages).getD 0 [] = (List.range 4).map fun s =>
        if stages.contains (stageName 1 (s + 1)) then some (1, s + 1)
        else none from rfl]
    rw [show ((List.range 4).map fun s =>
        if stages.contains (stageName 1 (s + 1)) then some (1, s + 1)
        else none).getD 0 none =
      (if stages.contains (stageName 1 1) then some (1, 1) else none) from rfl]
    rw [show stageName 1 1 = "1-1" from rfl, h11]
    rfl
  have hclose : close s0 = ⟨none, { s0 with env := none },
      ((s0.envs.map fun row => row.filterMap id)).flatten,
      s0.viewer.isSome⟩ := by
    unfold close
    rw [henv]
  refine ⟨by rw [hclose], ?_, ?_, by rw [hclose], by rw [hclose]⟩
  · intro x hx
    rw [henvs] at hx
    obtain ⟨w, hw, s', hs, hC, rfl⟩ := (gridOf_mem stages x).mp hx
    rw [hclose]
    show (((s0.envs.map fun row => row.filterMap id)).flatten).count _ = 1
    rw [henvs]
    exact gridOf_count_one stages w s' hw hs hC
  · intro x hx
    rw [hclose]
    show (((s0.envs.map fun row => row.filterMap id)).flatten).count x = 0
    rw [List.count_eq_zero]
    intro hmem
    exact hx ((mem_trace_iff s0.envs x).mp hmem)

/-- Witness for the amended C7 at a concrete one-stage construction. -/
theorem close_closes_each_built_once_witness :
    ∃ s0 : State,
      init (some ["1-1"]) 0 false ⟨0⟩ = Except.ok s0 ∧
      (close s0).err = none ∧ (close s0).closed.count (1, 1) = 1 := by
  cases hinit : init (some ["1-1"]) 0 false ⟨0⟩ with
  | error e => simp [init] at hinit
  | ok s0 =>
      have h := close_closes_each_built_once ["1-1"] 0 false ⟨0⟩ s0 hinit
        (by decide)
      refine ⟨s0, rfl, h.1, ?_⟩
      refine h.2.1 (1, 1) ?_
      have henvs : s0.envs = gridOf ["1-1"] := by
        simp only [init, Except.ok.injEq] at hinit
        subst hinit
        rfl
      rw [henvs]
      decide

/-- C7 as stated is refuted: a construction whose non-empty stage set lacks
`"1-1"` leaves the active-instance placeholder `None`, so the very first
`close()` raises and closes nothing, although an instance was built. -/
theorem first_close_can_fail_without_closing :
    (match init (some ["1-2"]) 0 false ⟨0⟩ with
     | Except.ok s0 =>
         (close s0).err = some "ValueError: env has already been closed." ∧
         (close s0).closed = [] ∧
         some ((1 : Nat), (2 : Nat)) ∈ s0.envs.flatten
     | Except.error _e => False) :=
  ⟨rfl, rfl, by decide⟩

theorem reset_env_eq (log : ℚ → ℚ) (sd : Option Nat)
    (opts : Option (Option (List String))) (s : State) :
    (reset log sd opts s).state.env =
      (chooseSel log opts ((seed sd s).2)).envNew.getD s.env := by
  cases sd <;> rfl

theorem reset_idx_eq (log : ℚ → ℚ) (sd : Option Nat)
    (opts : Option (Option (List String))) (s : State) :
    (reset log sd opts s).state.stage_index =
      (match (chooseSel log opts ((seed sd s).2)).idxNew with
       | some i => some i
       | none => s.stage_index) := by
  cases sd <;> rfl

theorem reset_weights_eq (log : ℚ → ℚ) (sd : Option Nat)
    (opts : Option (Option (List String))) (s : State) :
    (reset log sd opts s).state.stages_weights =
      (chooseSel log opts ((seed sd s).2)).weightsNew.getD
        s.stages_weights := by
  cases sd <;> rfl

/-- When the drawn level is missing from the constructor stage set, the
selection records the level, then fails at the index lookup, leaving the
stage index and the active instance untouched. -/
theorem afterWeights_notin_eval (l : List String) (m : Nat) (wcur : List ℚ)
    (ctor : List String) (grid : Grid) (rng : RandomState)
    (wNew : Option (List ℚ)) (lvl : String)
    (hsel : (afterWeights l m wcur ctor grid rng wNew).levelNew = some lvl)
    (hnot : indexIn lvl ctor = none) :
    (afterWeights l m wcur ctor grid rng wNew).err =
        some ("ValueError: " ++ lvl ++ " is not in list") ∧
      (afterWeights l m wcur ctor grid rng wNew).idxNew = none ∧
      (afterWeights l m wcur ctor grid rng wNew).envNew = none := by
  unfold afterWeights at hsel ⊢
  dsimp only at hsel ⊢
  cases hc : RandomState.choiceW (l.take m)
      (wcur.map fun q => q / wcur.sum) rng with
  | error e =>
      rw [hc] at hsel
      simp at hsel
  | ok lr =>
      rw [hc] at hsel
      dsimp only at hsel ⊢
      cases hix : indexIn lr.1 ctor with
      | none =>
          rw [hix] at hsel
          dsimp only at hsel ⊢
          have hlv : lr.1 = lvl := by simpa using hsel
          subst hlv
          exact ⟨rfl, rfl, rfl⟩
      | some idx =>
          rw [hix] at hsel
          dsimp only at hsel
          cases hp : parseLevel lr.1 with
          | none =>
              rw [hp] at hsel
              dsimp only at hsel
              have hlv : lr.1 = lvl := by simpa using hsel
              rw [← hlv, hix] at hnot
              exact Option.noConfusion hnot
          | some ws =>
              rw [hp] at hsel
              dsimp only at hsel
              cases hg : gridLookup grid ws.1 ws.2 with
              | none =>
                  rw [hg] at hsel
                  dsimp only at hsel
                  have hlv : lr.1 = lvl := by simpa using hsel
                  rw [← hlv, hix] at hnot
                  exact Option.noConfusion hnot
              | some slot =>
                  rw [hg] at hsel
                  cases slot with
                  | none =>
                      have hlv : lr.1 = lvl := by simpa using hsel
                      rw [← hlv, hix] at hnot
                      exact Option.noConfusion hnot
                  | some t =>
                      have hlv : lr.1 = lvl := by simpa using hsel
                      rw [← hlv, hix] at hnot
                      exact Option.noConfusion hnot

theorem selectStage_notin_eval (log : ℚ → ℚ) (l : List String)
    (balance : Bool) (steps : List Nat) (m : Nat) (w0 : List ℚ)
    (ctor : List String) (grid : Grid) (rng : RandomState) (lvl : String)
    (hsel : (selectStage log l balance steps m w0 ctor grid rng).levelNew =
      some lvl)
    (hnot : indexIn lvl ctor = none) :
    (selectStage log l balance steps m w0 ctor grid rng).err =
        some ("ValueError: " ++ lvl ++ " is not in list") ∧
      (selectStage log l balance steps m w0 ctor grid rng).idxNew = none ∧
      (selectStage log l balance steps m w0 ctor grid rng).envNew = none := by
  unfold selectStage at hsel ⊢
  cases balance with
  | false =>
      dsimp only at hsel ⊢
      exact afterWeights_notin_eval _ _ _ _ _ _ _ _ hsel hnot
  | true =>
      dsimp only at hsel ⊢
      by_cases h0 : ((steps.map (balanceWeight log)).take m).length = 0
      · rw [if_pos h0] at hsel
        simp at hsel
      · rw [if_neg h0] at hsel ⊢
        exact afterWeights_notin_eval _ _ _ _ _ _ _ _ hsel hnot

theorem chooseSel_override_eval (log : ℚ → ℚ) (ov : List String)
    (s1 : State) (hov : 0 < ov.length) :
    chooseSel log (some (some ov)) s1 =
      selectStage log ov s1.balance_steps_per_stage s1.steps_per_stage
        s1.max_unlocked s1.stages_weights s1.stages s1.envs s1.np_random :=
  chooseSel_eff_eval log (some (some ov)) s1 ov rfl hov

/-- C10: when `reset` is called with an options mapping whose `stages`
override is a non-empty set and the drawn level does not occur in the
constructor-default stage set `self.stages`, the reset raises the
`list.index` `ValueError` after recording the chosen level but before
switching the active instance or the stage index. -/
theorem override_index_uses_ctor_stages (log : ℚ → ℚ) (sd : Option Nat)
    (s : State) (ov : List String) (lvl : String)
    (hov : 0 < ov.length)
    (hsel : (selectStage log ov
        ((seed sd s).2).balance_steps_per_stage
        ((seed sd s).2).steps_per_stage ((seed sd s).2).max_unlocked
        ((seed sd s).2).stages_weights ((seed sd s).2).stages
        ((seed sd s).2).envs ((seed sd s).2).np_random).levelNew = some lvl)
    (hnot : indexIn lvl s.stages = none) :
    (reset log sd (some (some ov)) s).err =
        some ("ValueError: " ++ lvl ++ " is not in list") ∧
      (reset log sd (some (some ov)) s).state.level = some lvl ∧
      (reset log sd (some (some ov)) s).state.env = s.env ∧
      (reset log sd (some (some ov)) s).state.stage_index = s.stage_index := by
  have hst : ((seed sd s).2).stages = s.stages := by cases sd <;> rfl
  have hnot1 : indexIn lvl ((seed sd s).2).stages = none := by
    rw [hst]; exact hnot
  have hev := selectStage_notin_eval log ov
    ((seed sd s).2).balance_steps_per_stage ((seed sd s).2).steps_per_stage
    ((seed sd s).2).max_unlocked ((seed sd s).2).stages_weights
    ((seed sd s).2).stages ((seed sd s).2).envs ((seed sd s).2).np_random
    lvl hsel hnot1
  have hch := chooseSel_override_eval log ov ((seed sd s).2) hov
  refine ⟨?_, ?_, ?_, ?_⟩
  · rw [reset_err_eq, hch]
    exact hev.1
  · rw [reset_level_eq, hch, hsel]
  · rw [reset_env_eq, hch, hev.2.2]
    rfl
  · rw [reset_idx_eq, hch, hev.2.1]

/-- Witness for C10: the constructor set is `["1-1"]`, the per-reset
override is `["2-2"]`; the drawn level `"2-2"` is missing from
`self.stages`. -/
theorem override_index_uses_ctor_stages_witness :
    (reset (fun q => q) none (some (some ["2-2"])) sampleState).err =
        some ("ValueError: " ++ "2-2" ++ " is not in list") ∧
      (reset (fun q => q) none
          (some (some ["2-2"])) sampleState).state.level = some "2-2" ∧
      (reset (fun q => q) none
          (some (some ["2-2"])) sampleState).state.env = sampleState.env ∧
      (reset (fun q => q) none
          (some (some ["2-2"])) sampleState).state.stage_index =
        sampleState.stage_index := by
  refine override_index_uses_ctor_stages (fun q => q) none sampleState
    ["2-2"] "2-2" (by norm_num) ?_ rfl
  norm_num [selectStage, afterWeights, seed, sampleState,
    RandomState.choiceW, RandomState.next, pickIndex,
    show indexIn "2-2" ["1-1"] = none from rfl]

theorem pickIndex_lt : ∀ (p : List ℚ) (t : ℚ), p ≠ [] → pickIndex p t < p.length := by
  intro p
  induction p with
  | nil => intro t h; exact absurd rfl h
  | cons w ws ih =>
      intro t _
      cases ws with
      | nil => simp [pickIndex]
      | cons y ys =>
          by_cases hlt : t < w
          · simp [pickIndex, hlt]
          · have h2 := ih (t - w) (by simp)
            simp only [pickIndex, if_neg hlt, List.length_cons]
            simp only [List.length_cons] at h2
            omega

/-- A successful weighted choice returns an element of the pool, at an
index below the pool size. -/
theorem choiceW_ok_mem (items : List String) (p : List ℚ) (rng : RandomState)
    (lr : String × RandomState)
    (h : RandomState.choiceW items p rng = Except.ok lr) :
    ∃ j, j < items.length ∧ lr.1 = items.getD j "" := by
  unfold RandomState.choiceW at h
  by_cases h1 : items.length = 0
  · rw [if_pos h1] at h
    exact Except.noConfusion h
  · rw [if_neg h1] at h
    by_cases h2 : p.length ≠ items.length
    · rw [if_pos h2] at h
      exact Except.noConfusion h
    · rw [if_neg h2] at h
      by_cases h3 : (∃ q ∈ p, q < 0) ∨ p.sum ≤ 0
      · rw [if_pos h3] at h
        exact Except.noConfusion h
      · rw [if_neg h3] at h
        dsimp only at h
        have hpe : p.length = items.length := not_ne_iff.mp h2
        have hp : p ≠ [] := by
          intro he
          subst he
          simp only [List.length_nil] at hpe
          exact h1 hpe.symm
        refine ⟨pickIndex p ((rng.next.1 : ℚ) / 65536 * p.sum), ?_, ?_⟩
        · have := pickIndex_lt p ((rng.next.1 : ℚ) / 65536 * p.sum) hp
          omega
        · injection h with h4
          exact (congrArg Prod.fst h4).symm

theorem getD_take_of_lt {α : Type} (d : α) :
    ∀ (l : List α) (m j : Nat), j < m → (l.take m).getD j d = l.getD j d := by
  intro l
  induction l with
  | nil => intro m j _; simp
  | cons x xs ih =>
      intro m j h
      cases m with
      | zero => omega
      | succ m' =>
          cases j with
          | zero => rfl
          | succ n => exact ih m' n (by omega)

theorem getD_dropLast_of_lt {α : Type} (d : α) :
    ∀ (l : List α) (j : Nat), j + 1 < l.length → l.dropLast.getD j d = l.getD j d := by
  intro l
  induction l with
  | nil => intro j h; simp at h
  | cons x xs ih =>
      intro j h
      cases xs with
      | nil => simp only [List.length_cons, List.length_nil] at h; omega
      | cons y ys =>
          cases j with
          | zero => rfl
          | succ n =>
              refine ih n ?_
              simp only [List.length_cons] at h ⊢
              omega

theorem getD_append_of_lt {α : Type} (d : α) :
    ∀ (l l' : List α) (j : Nat), j < l.length →
      (l ++ l').getD j d = l.getD j d := by
  intro l
  induction l with
  | nil => intro l' j h; simp at h
  | cons x xs ih =>
      intro l' j h
      cases j with
      | zero => rfl
      | succ n => exact ih l' n (by simp only [List.length_cons] at h; omega)

theorem getD_append_length {α : Type} (d : α) :
    ∀ (l : List α) (x : α), (l ++ [x]).getD l.length d = x := by
  intro l
  induction l with
  | nil => intro x; rfl
  | cons y ys ih => intro x; exact ih x

theorem getD_map_bw (log : ℚ → ℚ) :
    ∀ (l : List Nat) (j : Nat), j < l.length →
      (l.map (balanceWeight log)).getD j 0 = balanceWeight log (l.getD j 0) := by
  intro l
  induction l with
  | nil => intro j h; simp at h
  | cons x xs ih =>
      intro j h
      cases j with
      | zero => rfl
      | succ n => exact ih n (by simp only [List.length_cons] at h; omega)

theorem lastD_eq_getD :
    ∀ (l : List ℚ), l ≠ [] → lastD l 0 = l.getD (l.length - 1) 0 := by
  intro l
  induction l with
  | nil => intro h; exact absurd rfl h
  | cons x xs ih =>
      intro _
      cases xs with
      | nil => rfl
      | cons y ys =>
          have h2 := ih (by simp)
          show lastD (y :: ys) 0 = (x :: y :: ys).getD ((x :: y :: ys).length - 1) 0
          rw [h2]
          rfl

theorem selectStage_true_weightsNew (log : ℚ → ℚ) (l : List String)
    (steps : List Nat) (m : Nat) (w0 : List ℚ) (ctor : List String)
    (grid : Grid) (rng : RandomState)
    (h0 : ¬ ((steps.map (balanceWeight log)).take m).length = 0) :
    (selectStage log l true steps m w0 ctor grid rng).weightsNew =
      some (((steps.map (balanceWeight log)).take m).dropLast ++
        [lastD ((steps.map (balanceWeight log)).take m) 0 * (m : ℚ)]) := by
  unfold selectStage
  dsimp only
  rw [if_neg h0]
  exact afterWeights_weightsNew _ _ _ _ _ _ _

theorem selectStage_true_err (log : ℚ → ℚ) (l : List String)
    (steps : List Nat) (m : Nat) (w0 : List ℚ) (ctor : List String)
    (grid : Grid) (rng : RandomState)
    (h0 : ¬ ((steps.map (balanceWeight log)).take m).length = 0) :
    selectStage log l true steps m w0 ctor grid rng =
      afterWeights l m
        (((steps.map (balanceWeight log)).take m).dropLast ++
          [lastD ((steps.map (balanceWeight log)).take m) 0 * (m : ℚ)])
        ctor grid rng
        (some (((steps.map (balanceWeight log)).take m).dropLast ++
          [lastD ((steps.map (balanceWeight log)).take m) 0 * (m : ℚ)])) := by
  unfold selectStage
  dsimp only
  rw [if_neg h0]
  rfl

/-- A selection that raised no error drew its level from the first `m`
entries of the effective stage pool. -/
theorem afterWeights_ok_level (l : List String) (m : Nat) (wcur : List ℚ)
    (ctor : List String) (grid : Grid) (rng : RandomState)
    (wNew : Option (List ℚ))
    (herr : (afterWeights l m wcur ctor grid rng wNew).err = none) :
    ∃ j, j < m ∧ j < l.length ∧
      (afterWeights l m wcur ctor grid rng wNew).levelNew =
        some (l.getD j "") := by
  unfold afterWeights at herr ⊢
  dsimp only at herr ⊢
  cases hc : RandomState.choiceW (l.take m)
      (wcur.map fun q => q / wcur.sum) rng with
  | error e =>
      rw [hc] at herr
      simp at herr
  | ok lr =>
      rw [hc] at herr
      dsimp only at herr ⊢
      obtain ⟨j, hj, hval⟩ := choiceW_ok_mem _ _ _ _ hc
      have hjm : j < m ∧ j < l.length := by
        rw [List.length_take] at hj
        omega
      cases hix : indexIn lr.1 ctor with
      | none =>
          rw [hix] at herr
          simp at herr
      | some idx =>
          rw [hix] at herr
          dsimp only at herr ⊢
          cases hp : parseLevel lr.1 with
          | none =>
              rw [hp] at herr
              simp at herr
          | some ws =>
              rw [hp] at herr
              dsimp only at herr ⊢
              cases hg : gridLookup grid ws.1 ws.2 with
              | none =>
                  rw [hg] at herr
                  simp at herr
              | some slot =>
                  rw [hg] at herr
                  cases slot with
                  | none => simp at herr
                  | some t =>
                      refine ⟨j, hjm.1, hjm.2, ?_⟩
                      dsimp only
                      rw [hval, getD_take_of_lt "" l m j hjm.1]

/-- C4: on every reset whose effective stage set (the `stages` override of
the options mapping when present, else the constructor set) is non-empty,
with balancing enabled and a well-formed curriculum window, the recomputed
sampling weight of stage `j` below `max_unlocked` equals
`1e6 / (1 + log(steps_taken[j] + 1))`, the weight of the last unlocked
stage is additionally multiplied by `max_unlocked`, the weight array has
exactly `max_unlocked` entries, and a draw that raises no error selects a
stage among the first `max_unlocked` of the effective set. -/
theorem balance_weights_formula (log : ℚ → ℚ) (sd : Option Nat)
    (opts : Option (Option (List String))) (s : State) (l : List String)
    (hb : s.balance_steps_per_stage = true)
    (hm1 : 1 ≤ s.max_unlocked)
    (hm2 : s.max_unlocked ≤ s.steps_per_stage.length)
    (heff : effectiveStages opts s = some l)
    (hne : l ≠ []) :
    (∀ j, j + 1 < s.max_unlocked →
        (reset log sd opts s).state.stages_weights.getD j 0 =
          1000000 / (1 + log ((s.steps_per_stage.getD j 0 : ℚ) + 1))) ∧
      (reset log sd opts s).state.stages_weights.getD
          (s.max_unlocked - 1) 0 =
        1000000 /
            (1 + log ((s.steps_per_stage.getD (s.max_unlocked - 1) 0 : ℚ) + 1)) *
          (s.max_unlocked : ℚ) ∧
      (reset log sd opts s).state.stages_weights.length = s.max_unlocked ∧
      ((reset log sd opts s).err = none →
        ∃ j, j < s.max_unlocked ∧
          (reset log sd opts s).state.level =
            some (l.getD j "")) := by
  have hlen : 0 < l.length := List.length_pos.mpr hne
  have heff1 : effectiveStages opts ((seed sd s).2) = some l := by
    cases opts with
    | some ov => exact heff
    | none => cases sd <;> exact heff
  have hch : chooseSel log opts ((seed sd s).2) =
      selectStage log l s.balance_steps_per_stage s.steps_per_stage
        s.max_unlocked s.stages_weights s.stages s.envs
        ((seed sd s).2).np_random := by
    rw [chooseSel_eff_eval log opts ((seed sd s).2) l heff1 hlen]
    cases sd <;> rfl
  rw [hb] at hch
  have hlw2 : ((s.steps_per_stage.map (balanceWeight log)).take
      s.max_unlocked).length = s.max_unlocked := by
    rw [List.length_take, List.length_map]
    omega
  have h0 : ¬ ((s.steps_per_stage.map (balanceWeight log)).take
      s.max_unlocked).length = 0 := by
    rw [hlw2]
    omega
  have hw2ne : (s.steps_per_stage.map (balanceWeight log)).take
      s.max_unlocked ≠ [] := by
    intro he
    rw [he] at hlw2
    simp only [List.length_nil] at hlw2
    omega
  have hweights : (reset log sd opts s).state.stages_weights =
      ((s.steps_per_stage.map (balanceWeight log)).take
          s.max_unlocked).dropLast ++
        [lastD ((s.steps_per_stage.map (balanceWeight log)).take
            s.max_unlocked) 0 * (s.max_unlocked : ℚ)] := by
    rw [reset_weights_eq, hch,
      selectStage_true_weightsNew log l s.steps_per_stage
        s.max_unlocked s.stages_weights s.stages s.envs
        ((seed sd s).2).np_random h0]
    rfl
  refine ⟨?_, ?_, ?_, ?_⟩
  · intro j hj
    rw [hweights,
      getD_append_of_lt 0 _ _ j (by rw [List.length_dropLast, hlw2]; omega),
      getD_dropLast_of_lt 0 _ j (by rw [hlw2]; omega),
      getD_take_of_lt 0 _ _ j (by omega),
      getD_map_bw log _ j (by omega)]
    rfl
  · rw [hweights]
    have hlast : (((s.steps_per_stage.map (balanceWeight log)).take
        s.max_unlocked).dropLast).length = s.max_unlocked - 1 := by
      rw [List.length_dropLast, hlw2]
    nth_rewrite 1 [← hlast]
    rw [getD_append_length 0 _ _,
      lastD_eq_getD _ hw2ne, hlw2,
      getD_take_of_lt 0 _ _ _ (by omega),
      getD_map_bw log _ _ (by omega)]
    rfl
  · rw [hweights, List.length_append, List.length_dropLast, hlw2]
    simp only [List.length_cons, List.length_nil]
    omega
  · intro herr
    rw [reset_err_eq, hch,
      selectStage_true_err log l s.steps_per_stage s.max_unlocked
        s.stages_weights s.stages s.envs ((seed sd s).2).np_random h0]
      at herr
    obtain ⟨j, hj1, hj2, hlvl⟩ :=
      afterWeights_ok_level _ _ _ _ _ _ _ herr
    refine ⟨j, hj1, ?_⟩
    rw [reset_level_eq, hch,
      selectStage_true_err log l s.steps_per_stage s.max_unlocked
        s.stages_weights s.stages s.envs ((seed sd s).2).np_random h0,
      hlvl]

/-- Witness for C4 at the concrete balancing construction `cexC5`, once
with the constructor stage set and once with a `stages` override in the
reset options. -/
theorem balance_weights_formula_witness :
    ((reset (fun _ => (0 : ℚ)) (some 0) none cexC5).state.stages_weights.length
        = cexC5.max_unlocked ∧
      ∃ j, j < cexC5.max_unlocked ∧
        (reset (fun _ => (0 : ℚ)) (some 0) none cexC5).state.level =
          some (cexC5.stages.getD j "")) ∧
    ((reset (fun _ => (0 : ℚ)) (some 0) (some (some ["1-1"]))
          cexC5).state.stages_weights.length = cexC5.max_unlocked ∧
      ∃ j, j < cexC5.max_unlocked ∧
        (reset (fun _ => (0 : ℚ)) (some 0) (some (some ["1-1"]))
            cexC5).state.level = some ((["1-1"] : List String).getD j "")) := by
  have h1 := balance_weights_formula (fun _ => (0 : ℚ)) (some 0) none cexC5
    cexC5.stages rfl (by decide) (by decide) rfl (by decide)
  have h2 := balance_weights_formula (fun _ => (0 : ℚ)) (some 0)
    (some (some ["1-1"])) cexC5 ["1-1"] rfl (by decide) (by decide) rfl
    (by decide)
  refine ⟨⟨h1.2.2.1, h1.2.2.2 ?_⟩, ⟨h2.2.2.1, h2.2.2.2 ?_⟩⟩ <;>
    norm_num [reset, seed, chooseSel, effectiveStages, selectStage,
      afterWeights, RandomState.choiceW, RandomState.seedWith,
      RandomState.next, pickIndex, lastD, balanceWeight, cexC5,
      show indexIn "1-1" ["1-1"] = some 0 from rfl,
      show parseLevel "1-1" = some (0, 0) from rfl,
      show gridLookup cexGrid 0 0 = some (some (1, 1)) from rfl]

end SMBRandomStages
